import Mathlib

/-!
Verification of the PocketBase Better-Auth adapter (`src/index.ts`).

The development shallowly embeds the adapter's logic:
* `parseWhere` — the where-clause-to-filter-string compiler;
* the CRUD façade operations (`create`, `findOne`, `findMany`, `count`,
  `update`, `updateMany`, `delete`, `deleteMany`), modelled as pure
  functions from a backend behaviour to a result together with the exact
  trace of backend calls they issue;
* `ensureAuth` — the per-call admin-session bootstrap, modelled with an
  explicit auth-event trace.
-/

namespace PBAdapter

/-- A primitive JavaScript value as used in `Where.value`:
a string, a (numeric) value, or a boolean. -/
inductive PrimVal where
  | str (s : String)
  | num (n : Int)
  | bool (b : Bool)
deriving DecidableEq, Repr

/-- A `Where.value`: either a primitive or an array of primitives. -/
inductive WValue where
  | prim (p : PrimVal)
  | arr (vs : List PrimVal)
deriving DecidableEq, Repr

/-- JavaScript default stringification of a primitive, as produced by
template interpolation. -/
def PrimVal.render : PrimVal → String
  | .str s => s
  | .num n => toString n
  | .bool b => if b then "true" else "false"

/-- JavaScript template interpolation of a raw value; an array joins its
elements with commas (`Array.prototype.toString`). -/
def WValue.render : WValue → String
  | .prim p => p.render
  | .arr vs => String.intercalate "," (vs.map PrimVal.render)

/-- The per-element rule at line 71 of `src/index.ts`:
`typeof v === "string" ? `"${v}"` : v`. -/
def PrimVal.quoteIfString : PrimVal → String
  | .str s => "\"" ++ s ++ "\""
  | p => p.render

/-- The scalar-value rule at line 60 of `src/index.ts`:
`typeof item.value === "string" ? `"${item.value}"` : item.value`. -/
def WValue.quoteIfString : WValue → String
  | .prim (.str s) => "\"" ++ s ++ "\""
  | v => v.render

/-- The closed operator enumeration of a Better Auth where condition. -/
inductive Operator where
  | eq | ne | inOp | contains | starts_with | ends_with | gt | gte | lt | lte
deriving DecidableEq, Repr

/-- One Better Auth where condition: field, operator and value. -/
structure WhereCond where
  field : String
  operator : Operator
  value : WValue
deriving DecidableEq, Repr

/-- The clause one condition contributes inside the `parseWhere` loop
(`filters.push(...)`); `none` means the loop body pushes nothing, which
happens exactly for `in` with a non-array value. -/
def condClause (item : WhereCond) : Option String :=
  let field := item.field
  let value := item.value.quoteIfString
  match item.operator with
  | .eq => some (field ++ " = " ++ value)
  | .ne => some (field ++ " != " ++ value)
  | .inOp =>
    match item.value with
    | .arr vs =>
      some (field ++ " ?~ [" ++
        String.intercalate ", " (vs.map PrimVal.quoteIfString) ++ "]")
    | _ => none
  | .contains => some (field ++ " ~ \"" ++ item.value.render ++ "\"")
  | .starts_with => some (field ++ " ~ \"" ++ item.value.render ++ "%\"")
  | .ends_with => some (field ++ " ~ \"%" ++ item.value.render ++ "\"")
  | .gt => some (field ++ " > " ++ value)
  | .gte => some (field ++ " >= " ++ value)
  | .lt => some (field ++ " < " ++ value)
  | .lte => some (field ++ " <= " ++ value)

/-- `parseWhere` from `src/index.ts`: compiles an optional condition list
to a PocketBase filter string.  `none` models an absent (`undefined`)
argument. -/
def parseWhere (w : Option (List WhereCond)) : String :=
  match w with
  | none => ""
  | some ws =>
    if ws.length = 0 then ""
    else String.intercalate " && " (ws.filterMap condClause)

/-- Spec-side scalar rendering (§4.1): a value is rendered double-quoted
iff it is a string; numbers and booleans use their literal textual form. -/
def specQuote : PrimVal → String
  | .str s => "\"" ++ s ++ "\""
  | .num n => toString n
  | .bool b => if b then "true" else "false"

theorem quoteIfString_eq_specQuote : PrimVal.quoteIfString = specQuote := by
  funext p
  cases p <;> rfl

theorem parseWhere_eq_intercalate (ws : List WhereCond) :
    parseWhere (some ws) = String.intercalate " && " (ws.filterMap condClause) := by
  cases ws with
  | nil => rfl
  | cons c cs => rfl

/-- `true` iff the value is an array. -/
def WValue.isArr : WValue → Bool
  | .arr _ => true
  | _ => false

theorem condClause_isSome (c : WhereCond)
    (h : c.operator = Operator.inOp → c.value.isArr = true) :
    ∃ x, condClause c = some x := by
  obtain ⟨f, op, v⟩ := c
  cases op
  case inOp =>
    cases v with
    | prim p => exact absurd (h rfl) (by simp [WValue.isArr])
    | arr vs => exact ⟨_, rfl⟩
  all_goals exact ⟨_, rfl⟩

theorem filterMap_condClause_eq_map (ws : List WhereCond)
    (h : ∀ c ∈ ws, c.operator = Operator.inOp → c.value.isArr = true) :
    ws.filterMap condClause = ws.map (fun c => parseWhere (some [c])) := by
  induction ws with
  | nil => rfl
  | cons c cs ih =>
    obtain ⟨x, hx⟩ := condClause_isSome c (h c (List.mem_cons_self ..))
    have hsingle : parseWhere (some [c]) = x := by
      rw [parseWhere_eq_intercalate]
      rw [show List.filterMap condClause [c] = [x] by simp [hx]]
      rfl
    simp [List.filterMap_cons, hx, hsingle,
      ih (fun d hd => h d (List.mem_cons_of_mem _ hd))]

example : parseWhere none = "" := rfl
example : parseWhere (some []) = "" := rfl
example :
    parseWhere (some [⟨"email", .eq, .prim (.str "test@example.com")⟩]) =
      "email = \"test@example.com\"" := rfl
example :
    parseWhere (some [⟨"id", .inOp, .arr [.str "1", .str "2", .str "3"]⟩]) =
      "id ?~ [\"1\", \"2\", \"3\"]" := rfl
example :
    parseWhere (some [⟨"age", .gt, .prim (.num 18)⟩]) = "age > 18" := rfl
example :
    parseWhere (some [⟨"status", .eq, .prim (.str "active")⟩,
                      ⟨"age", .gte, .prim (.num 18)⟩]) =
      "status = \"active\" && age >= 18" := rfl
example :
    parseWhere (some [⟨"age", .contains, .prim (.num 18)⟩]) = "age ~ \"18\"" := rfl

/-- Field map of a PocketBase record payload (`Record<string, any>`). -/
abbrev RecordData := List (String × PrimVal)

/-- A PocketBase record: its identifier plus its field map (the `id` key is
modelled separately from the other fields). -/
structure Record where
  id : String
  fields : RecordData
deriving DecidableEq, Repr

/-- Result shape of `pb.collection(...).getList(page, perPage, opts)`. -/
structure ListResult where
  items : List Record
  totalItems : Nat
deriving DecidableEq, Repr

/-- Backend failures are opaque to the façade; a string stands for the
thrown error value. -/
abbrev Err := String

/-- One call issued to the PocketBase client. -/
inductive BCall where
  | create (coll : String) (data : RecordData)
  | getList (coll : String) (page perPage : Nat)
      (filter : Option String) (sort : Option String)
  | update (coll : String) (id : String) (patch : RecordData)
  | delete (coll : String) (id : String)
deriving DecidableEq, Repr

/-- `true` for the calls that mutate backend state. -/
def BCall.isWrite : BCall → Bool
  | .getList .. => false
  | _ => true

/-- Backend behaviour: the response each PocketBase client call would
produce.  `Except.error` models the call throwing. -/
structure Backend where
  createR : String → RecordData → Except Err Record
  getListR : String → Nat → Nat → Option String → Option String →
    Except Err ListResult
  updateR : String → String → RecordData → Except Err Record
  deleteR : String → String → Except Err Unit

/-- The PocketBase client's auth store (`pb.authStore`). -/
structure AuthStore where
  token : String
  isValid : Bool
deriving DecidableEq, Repr

/-- Authentication side effects performed by `ensureAuth`:
`save t` models `pb.authStore.save(t, null)` and `login e p` models
`pb.collection("_superusers").authWithPassword(e, p)`. -/
inductive AuthEvent where
  | save (token : String)
  | login (email password : String)
deriving DecidableEq, Repr

/-- The raw connection parameters accepted in place of an instance. -/
structure ConnParams where
  url : String
  adminEmail : Option String
  adminPassword : Option String
  token : Option String
deriving DecidableEq, Repr

/-- How the adapter was constructed: from an already-live PocketBase
instance, or from raw connection parameters. -/
inductive PbConfig where
  | live
  | params (p : ConnParams)
deriving DecidableEq, Repr

/-- JavaScript truthiness of an optional string: `undefined` and the empty
string are falsy. -/
def optTruthy : Option String → Option String
  | some s => if s = "" then none else some s
  | none => none

/-- `ensureAuth` from `src/index.ts`: the per-call auth bootstrap.
`validOf` models the client's token-validity check after `save`, and
`loginStore` the auth store produced by a successful password login. -/
def ensureAuth (cfg : PbConfig) (validOf : String → Bool) (loginStore : AuthStore)
    (store : AuthStore) : AuthStore × List AuthEvent :=
  match cfg with
  | .live => (store, [])
  | .params p =>
    match optTruthy p.token with
    | some t =>
      if store.token = t then (store, [])
      else ({ token := t, isValid := validOf t }, [.save t])
    | none =>
      match optTruthy p.adminEmail, optTruthy p.adminPassword with
      | some e, some pw =>
        if store.isValid then (store, []) else (loginStore, [.login e pw])
      | _, _ => (store, [])

/-- Everything a façade call closes over: the construction config, the
auth-model parameters, the host framework's `getModelName`, and the
backend behaviour. -/
structure Ctx where
  cfg : PbConfig
  validOf : String → Bool
  loginStore : AuthStore
  getModelName : String → String
  be : Backend

/-- Outcome of one façade operation: the auth store afterwards, the auth
events performed, the backend calls issued (in order), and the result
returned to the host framework. -/
structure OpOut (α : Type) where
  store : AuthStore
  auth : List AuthEvent
  calls : List BCall
  result : α

/-- The `sortBy` argument of `findMany`: a field and a direction string
(the code only compares the direction against `"desc"`). -/
structure SortBy where
  field : String
  direction : String
deriving DecidableEq, Repr

/-- `limit || 50`: the page size, with JavaScript truthiness (a limit of
`0` is falsy and falls back to the default 50). -/
def perPageParam : Option Nat → Nat
  | some l => if l = 0 then 50 else l
  | none => 50

/-- `offset ? Math.floor(offset / (limit || 50)) + 1 : 1` (line 192):
the page number, with JavaScript truthiness (offset `0` is falsy). -/
def pageParam (offset limit : Option Nat) : Nat :=
  match offset with
  | some o => if o = 0 then 1 else o / perPageParam limit + 1
  | none => 1

/-- The sort string of `findMany`: `(-)field`, `-` iff descending. -/
def sortParam : Option SortBy → Option String
  | some sb => some ((if sb.direction = "desc" then "-" else "") ++ sb.field)
  | none => none

/-- `filter || undefined`: an empty compiled filter is passed as absent. -/
def filterOpt (s : String) : Option String := if s = "" then none else some s

/-- JavaScript spread merge `{ ...base, ...patch }` on the field maps:
base keys keep their order but patch values win; new patch keys follow. -/
def spreadMerge (base : Record) (patch : RecordData) : Record :=
  { id := base.id
    fields :=
      base.fields.map (fun kv =>
        match patch.lookup kv.1 with
        | some v => (kv.1, v)
        | none => kv) ++
      patch.filter (fun kv => base.fields.lookup kv.1 = none) }

/-- `create`: submits the data verbatim and re-raises any failure. -/
def create (ctx : Ctx) (store : AuthStore) (model : String) (data : RecordData) :
    OpOut (Except Err Record) :=
  let a := ensureAuth ctx.cfg ctx.validOf ctx.loginStore store
  let coll := ctx.getModelName model
  { store := a.1, auth := a.2
    calls := [.create coll data]
    result := ctx.be.createR coll data }

/-- `findOne`: page-1/size-1 list with the compiled filter (passed even
when empty); first item or `null`; `null` on failure. -/
def findOne (ctx : Ctx) (store : AuthStore) (model : String)
    (w : Option (List WhereCond)) : OpOut (Option Record) :=
  let a := ensureAuth ctx.cfg ctx.validOf ctx.loginStore store
  let coll := ctx.getModelName model
  let filter := parseWhere w
  { store := a.1, auth := a.2
    calls := [.getList coll 1 1 (some filter) none]
    result :=
      match ctx.be.getListR coll 1 1 (some filter) none with
      | .ok r => r.items.head?
      | .error _ => none }

/-- `findMany`: maps limit/offset to page/perPage, builds the sort
string, returns the page's items; `[]` on failure. -/
def findMany (ctx : Ctx) (store : AuthStore) (model : String)
    (w : Option (List WhereCond)) (limit offset : Option Nat)
    (sortBy : Option SortBy) : OpOut (List Record) :=
  let a := ensureAuth ctx.cfg ctx.validOf ctx.loginStore store
  let coll := ctx.getModelName model
  let page := pageParam offset limit
  let perPage := perPageParam limit
  let fo := filterOpt (parseWhere w)
  let so := sortParam sortBy
  { store := a.1, auth := a.2
    calls := [.getList coll page perPage fo so]
    result :=
      match ctx.be.getListR coll page perPage fo so with
      | .ok r => r.items
      | .error _ => [] }

/-- `count`: page-1/size-1 list, returns the backend's `totalItems`;
`0` on failure. -/
def count (ctx : Ctx) (store : AuthStore) (model : String)
    (w : Option (List WhereCond)) : OpOut Nat :=
  let a := ensureAuth ctx.cfg ctx.validOf ctx.loginStore store
  let coll := ctx.getModelName model
  let fo := filterOpt (parseWhere w)
  { store := a.1, auth := a.2
    calls := [.getList coll 1 1 fo none]
    result :=
      match ctx.be.getListR coll 1 1 fo none with
      | .ok r => r.totalItems
      | .error _ => 0 }

/-- `update`: fetches one match; if none, returns `null` without issuing
a write; otherwise updates it by id and returns the spread merge of the
updated record with the patch; `null` on failure. -/
def update (ctx : Ctx) (store : AuthStore) (model : String)
    (w : Option (List WhereCond)) (patch : RecordData) : OpOut (Option Record) :=
  let a := ensureAuth ctx.cfg ctx.validOf ctx.loginStore store
  let coll := ctx.getModelName model
  let filter := parseWhere w
  let gl := BCall.getList coll 1 1 (some filter) none
  let cr : List BCall × Option Record :=
    match ctx.be.getListR coll 1 1 (some filter) none with
    | .error _ => ([gl], none)
    | .ok r =>
      match r.items with
      | [] => ([gl], none)
      | rec0 :: _ =>
        match ctx.be.updateR coll rec0.id patch with
        | .ok updated =>
          ([gl, .update coll rec0.id patch], some (spreadMerge updated patch))
        | .error _ => ([gl, .update coll rec0.id patch], none)
  { store := a.1, auth := a.2, calls := cr.1, result := cr.2 }

/-- The sequential per-record loop of `updateMany`; `none` in the second
component means an update threw (caught by the surrounding `try`). -/
def updateLoop (be : Backend) (coll : String) (patch : RecordData) :
    List Record → Nat → List BCall × Option Nat
  | [], c => ([], some c)
  | r :: rs, c =>
    match be.updateR coll r.id patch with
    | .ok _ =>
      let rest := updateLoop be coll patch rs (c + 1)
      (.update coll r.id patch :: rest.1, rest.2)
    | .error _ => ([.update coll r.id patch], none)

/-- `updateMany`: fetches up to 500 matches and updates each in turn,
returning the number processed; `0` when any backend call throws. -/
def updateMany (ctx : Ctx) (store : AuthStore) (model : String)
    (w : Option (List WhereCond)) (patch : RecordData) : OpOut Nat :=
  let a := ensureAuth ctx.cfg ctx.validOf ctx.loginStore store
  let coll := ctx.getModelName model
  let fo := filterOpt (parseWhere w)
  let gl := BCall.getList coll 1 500 fo none
  let cr : List BCall × Nat :=
    match ctx.be.getListR coll 1 500 fo none with
    | .error _ => ([gl], 0)
    | .ok r =>
      let lp := updateLoop ctx.be coll patch r.items 0
      (gl :: lp.1, match lp.2 with | some c => c | none => 0)
  { store := a.1, auth := a.2, calls := cr.1, result := cr.2 }

/-- `delete`: fetches the first match and deletes it by id when present;
returns nothing; failures are suppressed. -/
def delete (ctx : Ctx) (store : AuthStore) (model : String)
    (w : Option (List WhereCond)) : OpOut Unit :=
  let a := ensureAuth ctx.cfg ctx.validOf ctx.loginStore store
  let coll := ctx.getModelName model
  let filter := parseWhere w
  let gl := BCall.getList coll 1 1 (some filter) none
  let cs : List BCall :=
    match ctx.be.getListR coll 1 1 (some filter) none with
    | .error _ => [gl]
    | .ok r =>
      match r.items with
      | [] => [gl]
      | rec0 :: _ => [gl, .delete coll rec0.id]
  { store := a.1, auth := a.2, calls := cs, result := () }

/-- The sequential per-record loop of `deleteMany`. -/
def deleteLoop (be : Backend) (coll : String) :
    List Record → Nat → List BCall × Option Nat
  | [], c => ([], some c)
  | r :: rs, c =>
    match be.deleteR coll r.id with
    | .ok _ =>
      let rest := deleteLoop be coll rs (c + 1)
      (.delete coll r.id :: rest.1, rest.2)
    | .error _ => ([.delete coll r.id], none)

/-- `deleteMany`: fetches up to 500 matches and deletes each in turn,
returning the number deleted; `0` when any backend call throws. -/
def deleteMany (ctx : Ctx) (store : AuthStore) (model : String)
    (w : Option (List WhereCond)) : OpOut Nat :=
  let a := ensureAuth ctx.cfg ctx.validOf ctx.loginStore store
  let coll := ctx.getModelName model
  let fo := filterOpt (parseWhere w)
  let gl := BCall.getList coll 1 500 fo none
  let cr : List BCall × Nat :=
    match ctx.be.getListR coll 1 500 fo none with
    | .error _ => ([gl], 0)
    | .ok r =>
      let lp := deleteLoop ctx.be coll r.items 0
      (gl :: lp.1, match lp.2 with | some c => c | none => 0)
  { store := a.1, auth := a.2, calls := cr.1, result := cr.2 }

/-- One façade invocation with its arguments. -/
inductive FacadeOp where
  | createOp (model : String) (data : RecordData)
  | findOneOp (model : String) (w : Option (List WhereCond))
  | findManyOp (model : String) (w : Option (List WhereCond))
      (limit offset : Option Nat) (sortBy : Option SortBy)
  | countOp (model : String) (w : Option (List WhereCond))
  | updateOp (model : String) (w : Option (List WhereCond)) (patch : RecordData)
  | updateManyOp (model : String) (w : Option (List WhereCond)) (patch : RecordData)
  | deleteOp (model : String) (w : Option (List WhereCond))
  | deleteManyOp (model : String) (w : Option (List WhereCond))
deriving DecidableEq, Repr

/-- Run one façade operation, keeping its auth-store effect and traces. -/
def runOp (ctx : Ctx) (store : AuthStore) :
    FacadeOp → AuthStore × List AuthEvent × List BCall
  | .createOp m d =>
    let o := create ctx store m d; (o.store, o.auth, o.calls)
  | .findOneOp m w =>
    let o := findOne ctx store m w; (o.store, o.auth, o.calls)
  | .findManyOp m w l off sb =>
    let o := findMany ctx store m w l off sb; (o.store, o.auth, o.calls)
  | .countOp m w =>
    let o := count ctx store m w; (o.store, o.auth, o.calls)
  | .updateOp m w p =>
    let o := update ctx store m w p; (o.store, o.auth, o.calls)
  | .updateManyOp m w p =>
    let o := updateMany ctx store m w p; (o.store, o.auth, o.calls)
  | .deleteOp m w =>
    let o := delete ctx store m w; (o.store, o.auth, o.calls)
  | .deleteManyOp m w =>
    let o := deleteMany ctx store m w; (o.store, o.auth, o.calls)

/-- Run a sequence of façade operations, threading the auth store and
concatenating the auth events. -/
def runOps (ctx : Ctx) (store : AuthStore) :
    List FacadeOp → AuthStore × List AuthEvent
  | [] => (store, [])
  | op :: ops =>
    let s1 := runOp ctx store op
    let s2 := runOps ctx s1.1 ops
    (s2.1, s1.2.1 ++ s2.2)

/-- C1: for every single-condition list, `parseWhere` returns exactly the
documented template of the condition's operator: `field = value` for eq,
`field != value` for ne, `field ?~ [v1, v2, ...]` for in with an array
value (comma-space separated, each element quoted iff it is a string),
`field ~ "value"` for contains, `field ~ "value%"` for starts_with,
`field ~ "%value"` for ends_with, and `field > value`, `field >= value`,
`field < value`, `field <= value` for gt, gte, lt, lte, where scalar
values in eq/ne/gt/gte/lt/lte are double-quoted iff they are strings. -/
theorem parseWhere_single_condition_templates
    (f s : String) (n : Int) (vs : List PrimVal) :
    parseWhere (some [⟨f, .eq, .prim (.str s)⟩]) = f ++ " = " ++ ("\"" ++ s ++ "\"") ∧
    parseWhere (some [⟨f, .eq, .prim (.num n)⟩]) = f ++ " = " ++ toString n ∧
    parseWhere (some [⟨f, .ne, .prim (.str s)⟩]) = f ++ " != " ++ ("\"" ++ s ++ "\"") ∧
    parseWhere (some [⟨f, .ne, .prim (.num n)⟩]) = f ++ " != " ++ toString n ∧
    parseWhere (some [⟨f, .inOp, .arr vs⟩]) =
      f ++ " ?~ [" ++ String.intercalate ", " (vs.map specQuote) ++ "]" ∧
    parseWhere (some [⟨f, .contains, .prim (.str s)⟩]) = f ++ " ~ \"" ++ s ++ "\"" ∧
    parseWhere (some [⟨f, .starts_with, .prim (.str s)⟩]) = f ++ " ~ \"" ++ s ++ "%\"" ∧
    parseWhere (some [⟨f, .ends_with, .prim (.str s)⟩]) = f ++ " ~ \"%" ++ s ++ "\"" ∧
    parseWhere (some [⟨f, .gt, .prim (.str s)⟩]) = f ++ " > " ++ ("\"" ++ s ++ "\"") ∧
    parseWhere (some [⟨f, .gt, .prim (.num n)⟩]) = f ++ " > " ++ toString n ∧
    parseWhere (some [⟨f, .gte, .prim (.str s)⟩]) = f ++ " >= " ++ ("\"" ++ s ++ "\"") ∧
    parseWhere (some [⟨f, .gte, .prim (.num n)⟩]) = f ++ " >= " ++ toString n ∧
    parseWhere (some [⟨f, .lt, .prim (.str s)⟩]) = f ++ " < " ++ ("\"" ++ s ++ "\"") ∧
    parseWhere (some [⟨f, .lt, .prim (.num n)⟩]) = f ++ " < " ++ toString n ∧
    parseWhere (some [⟨f, .lte, .prim (.str s)⟩]) = f ++ " <= " ++ ("\"" ++ s ++ "\"") ∧
    parseWhere (some [⟨f, .lte, .prim (.num n)⟩]) = f ++ " <= " ++ toString n := by
  refine ⟨rfl, rfl, rfl, rfl, ?_, rfl, rfl, rfl, rfl, rfl, rfl, rfl, rfl, rfl, rfl, rfl⟩
  rw [← quoteIfString_eq_specQuote]
  rfl

/-- C2: `parseWhere` renders each condition to one clause and joins the
clauses with the literal separator ` && ` in input order (here stated for
lists in which every `in` condition carries an array value, the only case
in which a condition yields a clause); an absent or empty list compiles to
the empty string, and the two-condition example compiles to
`status = "active" && age >= 18`. -/
theorem parseWhere_joins_in_order (ws : List WhereCond)
    (h : ∀ c ∈ ws, c.operator = Operator.inOp → c.value.isArr = true) :
    parseWhere none = "" ∧
    parseWhere (some []) = "" ∧
    parseWhere (some ws) =
      String.intercalate " && " (ws.map (fun c => parseWhere (some [c]))) ∧
    parseWhere (some [⟨"status", .eq, .prim (.str "active")⟩,
                      ⟨"age", .gte, .prim (.num 18)⟩]) =
      "status = \"active\" && age >= 18" := by
  refine ⟨rfl, rfl, ?_, rfl⟩
  rw [parseWhere_eq_intercalate, filterMap_condClause_eq_map ws h]

/-- Witness for C2 at the concrete two-condition list of the claim. -/
theorem parseWhere_joins_in_order_witness :
    parseWhere (some [⟨"status", .eq, .prim (.str "active")⟩,
                      ⟨"age", .gte, .prim (.num 18)⟩]) =
      String.intercalate " && "
        (([⟨"status", .eq, .prim (.str "active")⟩,
           ⟨"age", .gte, .prim (.num 18)⟩] : List WhereCond).map
          (fun c => parseWhere (some [c]))) :=
  (parseWhere_joins_in_order _ (by decide)).2.2.1

/-- C5: a condition whose operator is `in` and whose value is not an array
contributes no clause — deleting it from the list leaves the compiled
filter unchanged, and the remaining conditions render and join normally. -/
theorem parseWhere_skips_in_nonarray (ws1 ws2 : List WhereCond)
    (f : String) (p : PrimVal) :
    parseWhere (some (ws1 ++ ⟨f, .inOp, .prim p⟩ :: ws2)) =
      parseWhere (some (ws1 ++ ws2)) := by
  rw [parseWhere_eq_intercalate, parseWhere_eq_intercalate,
    List.filterMap_append, List.filterMap_append, List.filterMap_cons]
  rfl

/-- C6 counterexample: with operator `contains` and the numeric value 18 on
field `age`, the compiled clause is `age ~ "18"` — the numeric value is
wrapped in double quotes, so the claim that a numeric value never appears
double-quoted (for any operator, including contains) is false. -/
theorem contains_numeric_quoted_counterexample :
    parseWhere (some [⟨"age", .contains, .prim (.num 18)⟩]) = "age ~ \"18\"" ∧
    parseWhere (some [⟨"age", .contains, .prim (.num 18)⟩]) ≠ "age ~ 18" :=
  ⟨rfl, by decide⟩

/-- C6 amended: for eq, ne, gt, gte, lt, lte — and for each element of an
`in` array — a string value renders double-quoted while a numeric or
boolean value renders unquoted in its literal textual form; for contains,
starts_with and ends_with the value is always interpolated inside double
quotes, whatever its type. -/
theorem value_quoting_rules
    (f s : String) (n : Int) (b : Bool) (vs : List PrimVal) :
    parseWhere (some [⟨f, .eq, .prim (.str s)⟩]) = f ++ " = " ++ ("\"" ++ s ++ "\"") ∧
    parseWhere (some [⟨f, .eq, .prim (.num n)⟩]) = f ++ " = " ++ toString n ∧
    parseWhere (some [⟨f, .eq, .prim (.bool b)⟩]) =
      f ++ " = " ++ (if b then "true" else "false") ∧
    parseWhere (some [⟨f, .ne, .prim (.str s)⟩]) = f ++ " != " ++ ("\"" ++ s ++ "\"") ∧
    parseWhere (some [⟨f, .ne, .prim (.num n)⟩]) = f ++ " != " ++ toString n ∧
    parseWhere (some [⟨f, .ne, .prim (.bool b)⟩]) =
      f ++ " != " ++ (if b then "true" else "false") ∧
    parseWhere (some [⟨f, .gt, .prim (.str s)⟩]) = f ++ " > " ++ ("\"" ++ s ++ "\"") ∧
    parseWhere (some [⟨f, .gt, .prim (.num n)⟩]) = f ++ " > " ++ toString n ∧
    parseWhere (some [⟨f, .gt, .prim (.bool b)⟩]) =
      f ++ " > " ++ (if b then "true" else "false") ∧
    parseWhere (some [⟨f, .gte, .prim (.str s)⟩]) = f ++ " >= " ++ ("\"" ++ s ++ "\"") ∧
    parseWhere (some [⟨f, .gte, .prim (.num n)⟩]) = f ++ " >= " ++ toString n ∧
    parseWhere (some [⟨f, .gte, .prim (.bool b)⟩]) =
      f ++ " >= " ++ (if b then "true" else "false") ∧
    parseWhere (some [⟨f, .lt, .prim (.str s)⟩]) = f ++ " < " ++ ("\"" ++ s ++ "\"") ∧
    parseWhere (some [⟨f, .lt, .prim (.num n)⟩]) = f ++ " < " ++ toString n ∧
    parseWhere (some [⟨f, .lt, .prim (.bool b)⟩]) =
      f ++ " < " ++ (if b then "true" else "false") ∧
    parseWhere (some [⟨f, .lte, .prim (.str s)⟩]) = f ++ " <= " ++ ("\"" ++ s ++ "\"") ∧
    parseWhere (some [⟨f, .lte, .prim (.num n)⟩]) = f ++ " <= " ++ toString n ∧
    parseWhere (some [⟨f, .lte, .prim (.bool b)⟩]) =
      f ++ " <= " ++ (if b then "true" else "false") ∧
    parseWhere (some [⟨f, .inOp, .arr vs⟩]) =
      f ++ " ?~ [" ++ String.intercalate ", " (vs.map specQuote) ++ "]" ∧
    parseWhere (some [⟨f, .contains, .prim (.str s)⟩]) =
      f ++ " ~ \"" ++ s ++ "\"" ∧
    parseWhere (some [⟨f, .contains, .prim (.num n)⟩]) =
      f ++ " ~ \"" ++ toString n ++ "\"" ∧
    parseWhere (some [⟨f, .contains, .prim (.bool b)⟩]) =
      f ++ " ~ \"" ++ (if b then "true" else "false") ++ "\"" ∧
    parseWhere (some [⟨f, .starts_with, .prim (.str s)⟩]) =
      f ++ " ~ \"" ++ s ++ "%\"" ∧
    parseWhere (some [⟨f, .starts_with, .prim (.num n)⟩]) =
      f ++ " ~ \"" ++ toString n ++ "%\"" ∧
    parseWhere (some [⟨f, .starts_with, .prim (.bool b)⟩]) =
      f ++ " ~ \"" ++ (if b then "true" else "false") ++ "%\"" ∧
    parseWhere (some [⟨f, .ends_with, .prim (.str s)⟩]) =
      f ++ " ~ \"%" ++ s ++ "\"" ∧
    parseWhere (some [⟨f, .ends_with, .prim (.num n)⟩]) =
      f ++ " ~ \"%" ++ toString n ++ "\"" ∧
    parseWhere (some [⟨f, .ends_with, .prim (.bool b)⟩]) =
      f ++ " ~ \"%" ++ (if b then "true" else "false") ++ "\"" := by
  refine ⟨rfl, rfl, rfl, rfl, rfl, rfl, rfl, rfl, rfl, rfl, rfl, rfl, rfl, rfl,
    rfl, rfl, rfl, rfl, ?_, rfl, rfl, rfl, rfl, rfl, rfl, rfl, rfl, rfl⟩
  rw [← quoteIfString_eq_specQuote]
  rfl

theorem runOp_live (ctx : Ctx) (store : AuthStore) (op : FacadeOp)
    (h : ctx.cfg = .live) :
    (runOp ctx store op).1 = store ∧ (runOp ctx store op).2.1 = [] := by
  cases op <;>
    simp [runOp, create, findOne, findMany, count, update, updateMany,
      delete, deleteMany, ensureAuth, h]

/-- A backend whose every call throws `"boom"`. -/
def failingBackend : Backend where
  createR := fun _ _ => .error "boom"
  getListR := fun _ _ _ _ _ => .error "boom"
  updateR := fun _ _ _ => .error "boom"
  deleteR := fun _ _ => .error "boom"

/-- A backend whose list calls report 7 total items over an empty page and
whose other calls throw. -/
def totalSevenBackend : Backend where
  createR := fun _ _ => .error "e"
  getListR := fun _ _ _ _ _ => .ok ⟨[], 7⟩
  updateR := fun _ _ _ => .error "e"
  deleteR := fun _ _ => .error "e"

/-- A backend whose list calls match zero records and whose write calls
throw. -/
def emptyListBackend : Backend where
  createR := fun _ _ => .error "e"
  getListR := fun _ _ _ _ _ => .ok ⟨[], 0⟩
  updateR := fun _ _ _ => .error "e"
  deleteR := fun _ _ => .error "e"

/-- A context constructed from an already-live PocketBase instance. -/
def liveCtx (be : Backend) : Ctx where
  cfg := .live
  validOf := fun _ => true
  loginStore := ⟨"tok", true⟩
  getModelName := id
  be := be

/-- An arbitrary initial auth store. -/
def store0 : AuthStore := ⟨"", false⟩

/-- C3: when the backend call throws, `create` re-raises the failure
verbatim, while every filter-based operation suppresses it and returns its
default: `findOne` the absent-value sentinel, `findMany` the empty
collection, `count` 0, `update` the absent-value sentinel, `updateMany` 0,
`delete` returns normally having issued only the fetch call, and
`deleteMany` 0. -/
theorem error_policy (ctx : Ctx) (store : AuthStore) (model : String)
    (w : Option (List WhereCond)) (data patch : RecordData)
    (limit offset : Option Nat) (sb : Option SortBy) (e : Err)
    (hgl : ∀ c p pp f s, ctx.be.getListR c p pp f s = Except.error e) :
    (∀ e', ctx.be.createR (ctx.getModelName model) data = .error e' →
      (create ctx store model data).result = .error e') ∧
    (findOne ctx store model w).result = none ∧
    (findMany ctx store model w limit offset sb).result = [] ∧
    (count ctx store model w).result = 0 ∧
    (update ctx store model w patch).result = none ∧
    (updateMany ctx store model w patch).result = 0 ∧
    (delete ctx store model w).calls =
      [.getList (ctx.getModelName model) 1 1 (some (parseWhere w)) none] ∧
    (deleteMany ctx store model w).result = 0 := by
  refine ⟨fun e' he' => ?_, ?_, ?_, ?_, ?_, ?_, ?_, ?_⟩ <;>
    simp [create, findOne, findMany, count, update, updateMany, delete,
      deleteMany, hgl]
  exact he'

/-- Witness for C3: with a backend whose every call throws `"boom"`,
`findOne` returns the sentinel and `create` re-raises `"boom"`. -/
theorem error_policy_witness :
    (findOne (liveCtx failingBackend) store0 "user" none).result = none ∧
    (create (liveCtx failingBackend) store0 "user" []).result =
      Except.error "boom" := by
  have h := error_policy (liveCtx failingBackend) store0 "user" none [] []
    none none none "boom" (fun c p pp f s => rfl)
  exact ⟨h.2.1, h.1 "boom" rfl⟩

/-- C4: the page number `findMany` sends to the backend equals
`floor(offset / pageSize) + 1` when an offset is given and 1 otherwise,
where `pageSize` is the given (nonzero) limit or the default 50; in
particular offset 0 with limit 50 gives page 1, offset 50 with limit 50
gives page 2, and offset 25 with limit 50 gives page 1. -/
theorem findMany_page_arithmetic (ctx : Ctx) (store : AuthStore)
    (model : String) (w : Option (List WhereCond))
    (limit offset : Option Nat) (sb : Option SortBy)
    (hl : limit ≠ some 0) :
    (findMany ctx store model w limit offset sb).calls =
      [.getList (ctx.getModelName model)
        (match offset with
         | none => 1
         | some o => o / limit.getD 50 + 1)
        (limit.getD 50)
        (filterOpt (parseWhere w)) (sortParam sb)] ∧
    (findMany ctx store model w (some 50) (some 0) sb).calls =
      [.getList (ctx.getModelName model) 1 50
        (filterOpt (parseWhere w)) (sortParam sb)] ∧
    (findMany ctx store model w (some 50) (some 50) sb).calls =
      [.getList (ctx.getModelName model) 2 50
        (filterOpt (parseWhere w)) (sortParam sb)] ∧
    (findMany ctx store model w (some 50) (some 25) sb).calls =
      [.getList (ctx.getModelName model) 1 50
        (filterOpt (parseWhere w)) (sortParam sb)] := by
  refine ⟨?_, rfl, rfl, rfl⟩
  have hpp : perPageParam limit = limit.getD 50 := by
    cases limit with
    | none => rfl
    | some l =>
      have hne : l ≠ 0 := fun h0 => hl (by rw [h0])
      simp [perPageParam, hne]
  cases offset with
  | none => simp [findMany, pageParam, hpp]
  | some o =>
    by_cases ho : o = 0
    · subst ho; simp [findMany, pageParam, hpp]
    · simp [findMany, pageParam, hpp, ho]

/-- Witness for C4 at offset 50, limit 50: page 2 is requested. -/
theorem findMany_page_arithmetic_witness :
    (findMany (liveCtx failingBackend) store0 "user" none
        (some 50) (some 50) none).calls =
      [BCall.getList "user" 2 50 none none] :=
  (findMany_page_arithmetic (liveCtx failingBackend) store0 "user" none
    (some 50) (some 50) none (by decide)).2.2.1

/-- C7: `count` issues exactly one page-1/size-1 list request with the
compiled filter and returns the backend's `totalItems` field — whatever
the items page holds — or 0 when the backend call fails. -/
theorem count_uses_totalItems (ctx : Ctx) (store : AuthStore) (model : String)
    (w : Option (List WhereCond)) :
    (count ctx store model w).calls =
      [.getList (ctx.getModelName model) 1 1 (filterOpt (parseWhere w)) none] ∧
    (∀ r, ctx.be.getListR (ctx.getModelName model) 1 1
        (filterOpt (parseWhere w)) none = .ok r →
      (count ctx store model w).result = r.totalItems) ∧
    (∀ e, ctx.be.getListR (ctx.getModelName model) 1 1
        (filterOpt (parseWhere w)) none = .error e →
      (count ctx store model w).result = 0) := by
  refine ⟨rfl, ?_, ?_⟩ <;> intro x hx <;> simp [count, hx]

/-- Witness for C7: a backend reporting 7 total items over an empty page
makes `count` return 7, not the page length 0. -/
theorem count_uses_totalItems_witness :
    (count (liveCtx totalSevenBackend) store0 "user" none).result = 7 :=
  (count_uses_totalItems (liveCtx totalSevenBackend) store0 "user" none).2.1
    ⟨[], 7⟩ rfl

/-- C8: an `update` whose compiled filter matches zero records returns the
absent-value sentinel and issues no write call — its only backend call is
the page-1/size-1 read. -/
theorem update_zero_match_no_write (ctx : Ctx) (store : AuthStore)
    (model : String) (w : Option (List WhereCond)) (patch : RecordData)
    (n : Nat)
    (h : ctx.be.getListR (ctx.getModelName model) 1 1
        (some (parseWhere w)) none = .ok ⟨[], n⟩) :
    (update ctx store model w patch).result = none ∧
    (update ctx store model w patch).calls =
      [.getList (ctx.getModelName model) 1 1 (some (parseWhere w)) none] ∧
    ∀ c ∈ (update ctx store model w patch).calls, c.isWrite = false := by
  refine ⟨?_, ?_, ?_⟩ <;> simp [update, h, BCall.isWrite]

/-- Witness for C8: a backend matching zero records makes `update` return
the sentinel after only the read call. -/
theorem update_zero_match_no_write_witness :
    (update (liveCtx emptyListBackend) store0 "user" none []).result = none ∧
    (update (liveCtx emptyListBackend) store0 "user" none []).calls =
      [BCall.getList "user" 1 1 (some "") none] := by
  have h := update_zero_match_no_write (liveCtx emptyListBackend) store0
    "user" none [] 0 rfl
  exact ⟨h.1, h.2.1⟩

/-- C9: when the adapter is constructed from an already-live PocketBase
instance, the auth bootstrap is a no-op: across every sequence of façade
operations, no login call and no token save is performed and the auth
store is left untouched. -/
theorem live_instance_no_auth_events (ctx : Ctx) (store : AuthStore)
    (ops : List FacadeOp) (h : ctx.cfg = .live) :
    runOps ctx store ops = (store, []) := by
  induction ops generalizing store with
  | nil => rfl
  | cons op rest ih =>
    have h1 := runOp_live ctx store op h
    simp [runOps, h1.1, h1.2, ih]

/-- Witness for C9 on a concrete three-operation sequence. -/
theorem live_instance_no_auth_events_witness :
    runOps (liveCtx failingBackend) store0
      [.findOneOp "user" none, .createOp "user" [],
       .updateManyOp "session" none []] = (store0, []) :=
  live_instance_no_auth_events (liveCtx failingBackend) store0 _ rfl

/-- C10: `findMany` with limit 0 treats the limit as absent — the backend
request uses the default page size 50 (never 0), and the page number is
computed with divisor 50. -/
theorem findMany_zero_limit_default (ctx : Ctx) (store : AuthStore)
    (model : String) (w : Option (List WhereCond)) (offset : Option Nat)
    (sb : Option SortBy) :
    (findMany ctx store model w (some 0) offset sb).calls =
      [.getList (ctx.getModelName model)
        (match offset with
         | none => 1
         | some o => o / 50 + 1)
        50 (filterOpt (parseWhere w)) (sortParam sb)] := by
  cases offset with
  | none => rfl
  | some o =>
    by_cases ho : o = 0
    · subst ho; rfl
    · simp [findMany, pageParam, perPageParam, ho]

end PBAdapter
